import Mathlib

/-!
Formal model of the SmarParkingApp repository: a map-based parking finder
that fetches a GeoJSON feature collection through a relay server, normalizes
it, filters it by search term and accessibility toggles, and renders markers.

The embedding follows the TypeScript sources:
* App.tsx — filteredParkingData, fetchParkingData, calculateDistance,
  getLocation, the loading/map render branch, marker coordinate extraction;
* geoLocation.tsx — the useGeoLocation hook (initial resolution and
  refreshLocation) and the relay server's /proxy handler;
* the part_004 variant — the validating fetchParkingData (validFeatures).

Numbers in GeoJSON coordinates are modelled as rationals; the haversine
distance over real numbers.  JavaScript's s.toLowerCase().includes(t) is
modelled character-by-character over String.data.
-/

/-! ## String utilities (JavaScript toLowerCase / includes) -/

/-- Does the character list start with the pattern list?  Mirrors the prefix
check underlying JavaScript's String.prototype.includes. -/
def charsMatchAt : List Char → List Char → Bool
  | _, [] => true
  | [], _ :: _ => false
  | a :: as, b :: bs => a == b && charsMatchAt as bs

/-- Does the pattern occur contiguously anywhere in the character list?
JavaScript's s.includes(pat) over decoded characters. -/
def charsContain : List Char → List Char → Bool
  | [], pat => pat.isEmpty
  | a :: as, pat => charsMatchAt (a :: as) pat || charsContain as pat

/-- Character content of a string after lowercasing, as JavaScript's
s.toLowerCase() seen character-by-character. -/
def lowerData (s : String) : List Char := s.data.map Char.toLower

/-- Model of s.toLowerCase().includes(pat.toLowerCase()) from the filter in
App.tsx: case-insensitive substring containment. -/
def strIncludes (s pat : String) : Bool := charsContain (lowerData s) (lowerData pat)

/-- Every string contains the empty pattern: s.includes("") is true. -/
theorem charsContain_nil (cs : List Char) : charsContain cs [] = true := by
  cases cs <;> simp [charsContain, charsMatchAt, List.isEmpty]

/-- The empty search term matches every string. -/
theorem strIncludes_empty (s : String) : strIncludes s "" = true :=
  charsContain_nil (lowerData s)

/-! ## Data model (App.tsx interfaces, with fetched data left unvalidated) -/

/-- Properties record of a parking feature (the ParkingFeature interface of
App.tsx): name, type label, status, capacity, electric and disability flags. -/
structure ParkingProperties where
  name : String
  tyyppi : String
  status : String
  autopaikk : Nat
  sahkoauto : Bool
  inva : Bool
  deriving DecidableEq

/-- Geometry of a raw fetched feature: a list of rings, each ring a list of
positions, each position a list of numbers ([lng, lat] in the data).  The
coordinates field is optional because the fetched JSON is unvalidated (the
part_004 validator guards it with geometry?.coordinates?.). -/
structure RawGeometry where
  coordinates : Option (List (List (List ℚ)))
  deriving DecidableEq

/-- One raw fetched feature.  The geometry object itself may be absent in a
malformed upstream record. -/
structure RawFeature where
  properties : ParkingProperties
  geometry : Option RawGeometry
  deriving DecidableEq

/-- Top-level decoded response envelope: the features key may be absent
(the code checks data && data.features). -/
structure RawEnvelope where
  features : Option (List RawFeature)
  deriving DecidableEq

/-! ## Filter Engine (App.tsx filteredParkingData) -/

/-- UI filter state: the search term and the two toggles (App.tsx useState
initial values: empty term, both false). -/
structure FilterState where
  searchTerm : String
  electric : Bool
  disability : Bool
  deriving DecidableEq

/-- Initial filter state of App.tsx: empty search term, both toggles off. -/
def initialFilters : FilterState :=
  { searchTerm := "", electric := false, disability := false }

/-- Predicate of App.tsx's filteredParkingData: a record passes when
(!filters.electric || sahkoauto) && (!filters.disability || inva) &&
(name.toLowerCase().includes(term.toLowerCase()) ||
 tyyppi.toLowerCase().includes(term.toLowerCase())). -/
def featurePasses (filters : FilterState) (record : RawFeature) : Bool :=
  (!filters.electric || record.properties.sahkoauto) &&
    (!filters.disability || record.properties.inva) &&
    (strIncludes record.properties.name filters.searchTerm ||
      strIncludes record.properties.tyyppi filters.searchTerm)

/-- App.tsx: parkingData.filter(record => ...). -/
def filteredParkingData (parkingData : List RawFeature) (filters : FilterState) :
    List RawFeature :=
  parkingData.filter (featurePasses filters)

/-- C1: a feature appears in the filtered output iff it is in the input and
(!electric || sahkoauto) && (!disability || inva) && (the search term is a
case-insensitive substring of the name or of the type); the empty search
term always satisfies the text clause. -/
theorem filter_engine_iff (parkingData : List RawFeature) (filters : FilterState)
    (f : RawFeature) :
    (f ∈ filteredParkingData parkingData filters ↔
      f ∈ parkingData ∧
        ((!filters.electric || f.properties.sahkoauto) &&
          (!filters.disability || f.properties.inva) &&
          (strIncludes f.properties.name filters.searchTerm ||
            strIncludes f.properties.tyyppi filters.searchTerm)) = true)
    ∧ (filters.searchTerm = "" →
        (strIncludes f.properties.name filters.searchTerm ||
          strIncludes f.properties.tyyppi filters.searchTerm) = true) := by
  constructor
  · exact ⟨fun h => ⟨(List.mem_filter.mp h).1, (List.mem_filter.mp h).2⟩,
      fun h => List.mem_filter.mpr ⟨h.1, h.2⟩⟩
  · intro h
    rw [h]
    simp [strIncludes_empty]

/-- C5: the filtered output is an ordered sublist of the input; with a
toggle on every output feature has the matching flag; the empty search term
excludes nothing textually; default criteria return the whole list. -/
theorem filter_structural_postcondition (l : List RawFeature) (c : FilterState) :
    (filteredParkingData l c).Sublist l
    ∧ (c.electric = true → ∀ f ∈ filteredParkingData l c, f.properties.sahkoauto = true)
    ∧ (c.disability = true → ∀ f ∈ filteredParkingData l c, f.properties.inva = true)
    ∧ (c.searchTerm = "" → ∀ f ∈ l,
        (strIncludes f.properties.name c.searchTerm ||
          strIncludes f.properties.tyyppi c.searchTerm) = true)
    ∧ (c = initialFilters → filteredParkingData l c = l) := by
  refine ⟨List.filter_sublist l, ?_, ?_, ?_, ?_⟩
  · intro he f hf
    have h2 := (List.mem_filter.mp hf).2
    simp [featurePasses, he] at h2
    exact h2.1.1
  · intro hd f hf
    have h2 := (List.mem_filter.mp hf).2
    simp [featurePasses, hd] at h2
    exact h2.1.2
  · intro hterm f _
    rw [hterm]
    simp [strIncludes_empty]
  · intro hc
    subst hc
    refine List.filter_eq_self.mpr fun f _ => ?_
    simp [featurePasses, initialFilters, strIncludes_empty]

/-- C10: filtering an already-filtered list again with the same criteria
yields the same list. -/
theorem filter_engine_idempotent (l : List RawFeature) (c : FilterState) :
    filteredParkingData (filteredParkingData l c) c = filteredParkingData l c := by
  simp [filteredParkingData, List.filter_filter]

/-! ## Feature Normalizer (part_004 fetchParkingData / validFeatures) -/

/-- First ring of a feature's geometry, as the optional chain
feature.geometry?.coordinates?.[0] evaluates it: absent geometry, absent
coordinates or an empty ring list all yield nothing. -/
def firstRing (f : RawFeature) : Option (List (List ℚ)) :=
  (f.geometry.bind RawGeometry.coordinates).bind List.head?

/-- Validation check of part_004: feature.geometry?.coordinates?.[0]?.length > 0
(a comparison with an undefined length is false in JavaScript). -/
def hasValidCoordinates (f : RawFeature) : Bool :=
  match firstRing f with
  | some ring => decide (0 < ring.length)
  | none => false

/-- part_004: data.features.filter(feature => hasValidCoordinates). -/
def validFeatures (features : List RawFeature) : List RawFeature :=
  features.filter hasValidCoordinates

/-- Passing the validation check is the same as having a present, non-empty
first coordinate ring. -/
theorem hasValidCoordinates_iff (f : RawFeature) :
    hasValidCoordinates f = true ↔
      ∃ ring rest, f.geometry.bind RawGeometry.coordinates = some (ring :: rest)
        ∧ ring ≠ [] := by
  unfold hasValidCoordinates firstRing
  cases hco : f.geometry.bind RawGeometry.coordinates with
  | none => simp
  | some l =>
    cases l with
    | nil => simp
    | cons r rest => simp [List.length_pos]

/-- C2: every feature surviving normalization has a present, non-empty first
coordinate ring; survivors keep the upstream order (ordered sublist, so no
duplication or sorting is introduced); a valid feature is never dropped even
when malformed ones are present (no batch abort); an invalid feature never
survives. -/
theorem normalizer_valid_output (fs : List RawFeature) :
    (∀ f ∈ validFeatures fs, ∃ ring rest,
        f.geometry.bind RawGeometry.coordinates = some (ring :: rest) ∧ ring ≠ [])
    ∧ (validFeatures fs).Sublist fs
    ∧ (∀ f ∈ fs, hasValidCoordinates f = true → f ∈ validFeatures fs)
    ∧ (∀ f ∈ fs, hasValidCoordinates f = false → f ∉ validFeatures fs) := by
  refine ⟨?_, List.filter_sublist fs, ?_, ?_⟩
  · intro f hf
    exact (hasValidCoordinates_iff f).mp (List.mem_filter.mp hf).2
  · intro f hmem hvalid
    exact List.mem_filter.mpr ⟨hmem, hvalid⟩
  · intro f _ hinvalid hmem
    have h2 := (List.mem_filter.mp hmem).2
    rw [hinvalid] at h2
    exact Bool.false_ne_true h2

/-! ## Ingestion step (App.tsx fetchParkingData) -/

/-- Outcome of the fetch-and-decode of App.tsx: either a decoded envelope, or
a thrown failure (network error or undecodable body) landing in the catch. -/
inductive FetchOutcome where
  | success (data : RawEnvelope)
  | failure
  deriving DecidableEq

/-- App.tsx fetchParkingData as a step on the held feature list, returning
the new list and whether the error alert fired: on a decoded envelope with a
features key it stores data.features; otherwise it alerts and leaves the
list untouched; the catch branch alerts and leaves the list untouched. -/
def fetchStep (prev : List RawFeature) : FetchOutcome → List RawFeature × Bool
  | .failure => (prev, true)
  | .success data =>
    match data.features with
    | some fs => (fs, false)
    | none => (prev, true)

/-- C3: the error alert fires exactly when the fetch failed or the envelope
lacks a features key; whenever it fires the held list is unchanged (so empty
on first load, never partially updated); on a well-formed envelope the list
is replaced wholesale by the fetched features with no alert. -/
theorem ingestion_failure_atomic (prev : List RawFeature) (o : FetchOutcome) :
    ((fetchStep prev o).2 = true ↔
      o = FetchOutcome.failure ∨ ∃ d, o = FetchOutcome.success d ∧ d.features = none)
    ∧ ((fetchStep prev o).2 = true → (fetchStep prev o).1 = prev)
    ∧ (∀ d fs, o = FetchOutcome.success d → d.features = some fs →
        fetchStep prev o = (fs, false)) := by
  cases o with
  | failure => simp [fetchStep]
  | success d =>
    cases hd : d.features with
    | none =>
      refine ⟨by simp [fetchStep, hd], by simp [fetchStep, hd], ?_⟩
      intro d' fs hsucc hfs
      injection hsucc with h
      subst h
      rw [hd] at hfs
      exact Option.noConfusion hfs
    | some fs =>
      refine ⟨by simp [fetchStep, hd], by simp [fetchStep, hd], ?_⟩
      intro d' fs' hsucc hfs
      injection hsucc with h
      subst h
      rw [hd] at hfs
      injection hfs with h2
      subst h2
      simp [fetchStep, hd]

/-! ## Marker coordinate extraction (App.tsx marker rendering) -/

/-- App.tsx marker rendering destructures
const [lng, lat] = feature.geometry.coordinates[0][0] with no guard; the
total model returns the error branch (none) whenever the geometry object,
the coordinates array, the first ring or its first position is missing, or
the position has fewer than two numbers. -/
def markerCoordinate (feature : RawFeature) : Option (ℚ × ℚ) :=
  match feature.geometry with
  | none => none
  | some g =>
    match g.coordinates with
    | none => none
    | some rings =>
      match rings.head? with
      | none => none
      | some ring =>
        match ring.head? with
        | none => none
        | some position =>
          match position with
          | lng :: lat :: _ => some (lng, lat)
          | _ => none

/-- Concrete malformed upstream record: well-formed properties but an empty
coordinates array, so its first ring is absent. -/
def emptyRingFeature : RawFeature :=
  { properties :=
      { name := "Lot X", tyyppi := "surface", status := "open",
        autopaikk := 5, sahkoauto := false, inva := false },
    geometry := some { coordinates := some [] } }

/-- C4: App.tsx stores fetched features without per-feature validation, so a
feature with an absent first ring is stored, passes the default filter, and
its marker coordinate extraction hits the error branch. -/
theorem marker_extraction_error_reachable :
    (fetchStep [] (FetchOutcome.success { features := some [emptyRingFeature] })).1
        = [emptyRingFeature]
    ∧ emptyRingFeature ∈
        filteredParkingData
          (fetchStep [] (FetchOutcome.success { features := some [emptyRingFeature] })).1
          initialFilters
    ∧ markerCoordinate emptyRingFeature = none := by
  refine ⟨rfl, ?_, rfl⟩
  decide

/-! ## Location Provider (geoLocation.tsx useGeoLocation, App.tsx getLocation) -/

/-- Coordinate pair held by the useGeoLocation hook. -/
structure Coordinates where
  lat : ℚ
  lng : ℚ
  deriving DecidableEq

/-- Fixed Helsinki fallback point of geoLocation.tsx. -/
def defaultCoordinates : Coordinates := { lat := 60.1699, lng := 24.9384 }

/-- State held by the useGeoLocation hook: loaded flag, coordinates, and an
optional error message. -/
structure LocationState where
  loaded : Bool
  coordinates : Coordinates
  error : Option String
  deriving DecidableEq

/-- Initial hook state before any async resolution: not loaded, fallback
coordinates, no error. -/
def initialLocationState : LocationState :=
  { loaded := false, coordinates := defaultCoordinates, error := none }

/-- Result of requestForegroundPermissionsAsync: granted or anything else. -/
inductive PermissionStatus where
  | granted
  | denied
  deriving DecidableEq

/-- Result of getCurrentPositionAsync: a position, or a thrown error. -/
inductive PositionResult where
  | ok (lat lng : ℚ)
  | err
  deriving DecidableEq

/-- Mount effect of useGeoLocation: denial resolves to the fallback with an
error message; a granted query stores the position; a failed query resolves
to the fallback with an error message. -/
def resolveInitialLocation (perm : PermissionStatus) (pos : PositionResult) :
    LocationState :=
  match perm with
  | .denied =>
    { loaded := true, coordinates := defaultCoordinates,
      error := some "Permission to access location was denied" }
  | .granted =>
    match pos with
    | .ok lat lng =>
      { loaded := true, coordinates := { lat := lat, lng := lng }, error := none }
    | .err =>
      { loaded := true, coordinates := defaultCoordinates,
        error := some "Error getting location" }

/-- refreshLocation of geoLocation.tsx: success replaces the whole state with
the fresh position and clears the error; failure spreads the previous state
and only sets the error message. -/
def refreshLocation (prev : LocationState) (pos : PositionResult) : LocationState :=
  match pos with
  | .ok lat lng =>
    { loaded := true, coordinates := { lat := lat, lng := lng }, error := none }
  | .err => { prev with error := some "Error refreshing location" }

/-- Map viewport region of App.tsx (LocationState interface there). -/
structure Region where
  latitude : ℚ
  longitude : ℚ
  latitudeDelta : ℚ
  longitudeDelta : ℚ
  deriving DecidableEq

/-- App.tsx getLocation effect on the currentLocation state (initially none):
on denial it alerts and returns leaving the state untouched; on a granted
query it stores the position with 0.05 deltas; on a failed query it alerts
leaving the state untouched. -/
def getLocationStep (prev : Option Region) (perm : PermissionStatus)
    (pos : PositionResult) : Option Region :=
  match perm with
  | .denied => prev
  | .granted =>
    match pos with
    | .ok lat lng =>
      some { latitude := lat, longitude := lng,
             latitudeDelta := 0.05, longitudeDelta := 0.05 }
    | .err => prev

/-- What App.tsx renders. -/
inductive AppView where
  | loading
  | map (center : Region)
  deriving DecidableEq

/-- Render branch of App.tsx: if (!currentLocation) return the Loading view,
else the MapView with initialRegion = currentLocation. -/
def appRender (currentLocation : Option Region) : AppView :=
  match currentLocation with
  | none => .loading
  | some region => .map region

/-- C6 counterexample: at startup (currentLocation = none) with permission
denied, App.tsx does not render the map at the fallback viewport — it stays
on the Loading view. -/
theorem location_denied_map_blocks_cex :
    appRender (getLocationStep none PermissionStatus.denied PositionResult.err)
        = AppView.loading
    ∧ appRender (getLocationStep none PermissionStatus.denied PositionResult.err)
        ≠ AppView.map { latitude := 60.1699, longitude := 24.9384,
                        latitudeDelta := 0.05, longitudeDelta := 0.05 } := by
  exact ⟨rfl, fun h => AppView.noConfusion h⟩

/-- C6 amended: on denial the useGeoLocation hook resolves to the fallback
coordinate with the error flag set, but the App component does not consume
the hook: its own handler leaves currentLocation unset on denial, so the app
keeps showing the Loading view instead of a map centered on the fallback. -/
theorem location_denied_fallback_amended (pos : PositionResult) (prev : Option Region) :
    (resolveInitialLocation PermissionStatus.denied pos).coordinates = defaultCoordinates
    ∧ (resolveInitialLocation PermissionStatus.denied pos).error
        = some "Permission to access location was denied"
    ∧ (resolveInitialLocation PermissionStatus.denied pos).loaded = true
    ∧ getLocationStep prev PermissionStatus.denied pos = prev
    ∧ appRender none = AppView.loading :=
  ⟨rfl, rfl, rfl, rfl, rfl⟩

/-- C8: a failed refresh keeps the held coordinate (and loaded flag) and only
gains the error message — it never reverts to the fallback; a successful
refresh replaces the coordinate with the fresh position and clears the
error. -/
theorem refresh_frame_condition (prev : LocationState) :
    (∀ lat lng, refreshLocation prev (PositionResult.ok lat lng) =
      { loaded := true, coordinates := { lat := lat, lng := lng }, error := none })
    ∧ (refreshLocation prev PositionResult.err).coordinates = prev.coordinates
    ∧ (refreshLocation prev PositionResult.err).loaded = prev.loaded
    ∧ (refreshLocation prev PositionResult.err).error = some "Error refreshing location" :=
  ⟨fun _ _ => rfl, rfl, rfl, rfl⟩

/-! ## Relay Fetcher (server /proxy handler) -/

/-- Outcome of the relay's upstream fetch-and-decode: a response with its
HTTP status and decoded body, or a thrown failure (network error or
undecodable body) with its message. -/
inductive UpstreamOutcome where
  | success (status : Nat) (body : String)
  | failure (msg : String)
  deriving DecidableEq

/-- Body the relay responds with: the upstream payload forwarded verbatim,
or the error object written by res.status(500).json. -/
inductive RelayBody where
  | payload (data : String)
  | errorObj (msg : String)
  deriving DecidableEq

/-- response.ok of the fetch API: status in the 2xx range. -/
def responseOk (status : Nat) : Bool := 200 ≤ status && status ≤ 299

/-- The /proxy handler: non-ok upstream status throws
"HTTP error! status: N" into the catch; the catch responds 500 with the
error object; an ok response is forwarded verbatim (express default 200). -/
def proxyHandler : UpstreamOutcome → Nat × RelayBody
  | .failure msg => (500, .errorObj msg)
  | .success status body =>
    if responseOk status then (200, .payload body)
    else (500, .errorObj ("HTTP error! status: " ++ toString status))

/-- A run of the relay over a sequence of independent requests: each request
is handled by the same pure handler, with no state carried between them. -/
def relayRun (outcomes : List UpstreamOutcome) : List (Nat × RelayBody) :=
  outcomes.map proxyHandler

/-- C7: a 2xx upstream response is forwarded verbatim; any network failure or
non-2xx upstream status yields status 500 with an error body carrying the
failure message; a run over many requests is the requestwise handler applied
independently, so no state is held between requests. -/
theorem relay_fetcher_contract (status : Nat) (body msg : String)
    (os1 os2 : List UpstreamOutcome) :
    (responseOk status = true →
      proxyHandler (UpstreamOutcome.success status body) = (200, RelayBody.payload body))
    ∧ (responseOk status = false →
      proxyHandler (UpstreamOutcome.success status body) =
        (500, RelayBody.errorObj ("HTTP error! status: " ++ toString status)))
    ∧ proxyHandler (UpstreamOutcome.failure msg) = (500, RelayBody.errorObj msg)
    ∧ relayRun (os1 ++ os2) = relayRun os1 ++ relayRun os2 := by
  refine ⟨fun h => ?_, fun h => ?_, rfl, ?_⟩
  · simp [proxyHandler, h]
  · simp [proxyHandler, h]
  · simp [relayRun]

/-! ## Geo Utility (App.tsx calculateDistance, haversine) -/

/-- Intermediate a of the haversine formula in calculateDistance:
sin(dLat/2)^2 + cos(lat1 rad) * cos(lat2 rad) * sin(dLon/2)^2 with
dLat = (lat2 - lat1) * pi / 180 and dLon = (lon2 - lon1) * pi / 180. -/
noncomputable def haversineA (lat1 lon1 lat2 lon2 : ℝ) : ℝ :=
  Real.sin ((lat2 - lat1) * Real.pi / 180 / 2) *
      Real.sin ((lat2 - lat1) * Real.pi / 180 / 2) +
    Real.cos (lat1 * Real.pi / 180) * Real.cos (lat2 * Real.pi / 180) *
      Real.sin ((lon2 - lon1) * Real.pi / 180 / 2) *
      Real.sin ((lon2 - lon1) * Real.pi / 180 / 2)

/-- Math.atan2 over the reals, by quadrant. -/
noncomputable def atan2 (y x : ℝ) : ℝ :=
  if 0 < x then Real.arctan (y / x)
  else if x = 0 ∧ 0 < y then Real.pi / 2
  else if x = 0 ∧ y < 0 then -(Real.pi / 2)
  else if x = 0 ∧ y = 0 then 0
  else if 0 ≤ y then Real.arctan (y / x) + Real.pi
  else Real.arctan (y / x) - Real.pi

/-- calculateDistance of App.tsx, the numeric kilometre value before the
two-decimal display formatting: R * c with R = 6371 and
c = 2 * atan2(sqrt(a), sqrt(1 - a)). -/
noncomputable def calculateDistance (lat1 lon1 lat2 lon2 : ℝ) : ℝ :=
  6371 * (2 * atan2 (Real.sqrt (haversineA lat1 lon1 lat2 lon2))
    (Real.sqrt (1 - haversineA lat1 lon1 lat2 lon2)))

/-- The haversine intermediate is symmetric in the two points. -/
theorem haversineA_symm (a b c d : ℝ) : haversineA a b c d = haversineA c d a b := by
  have hs : ∀ x y : ℝ,
      Real.sin ((x - y) * Real.pi / 180 / 2) = -Real.sin ((y - x) * Real.pi / 180 / 2) := by
    intro x y
    rw [show (x - y) * Real.pi / 180 / 2 = -((y - x) * Real.pi / 180 / 2) by ring,
      Real.sin_neg]
  unfold haversineA
  rw [hs c a, hs d b]
  ring

/-- C9: the distance of a point to itself is zero, and the distance is
symmetric in its two coordinate pairs. -/
theorem distance_algebra :
    (∀ x y : ℝ, calculateDistance x y x y = 0)
    ∧ (∀ a b c d : ℝ, calculateDistance a b c d = calculateDistance c d a b) := by
  constructor
  · intro x y
    have h : haversineA x y x y = 0 := by
      unfold haversineA
      simp
    unfold calculateDistance
    rw [h]
    norm_num [atan2, Real.sqrt_zero, Real.sqrt_one, Real.arctan_zero]
  · intro a b c d
    unfold calculateDistance
    rw [haversineA_symm]
